import Mathlib

/-!
Verification of the `proxytest` base host emulation (`proxytest/base.go`).

The Go file implements an in-process emulation of the proxy-wasm host side:
log capture, tick-period storage, a named FIFO queue registry, a shared
key/value store guarded by compare-and-swap counters, and a metrics registry.

We embed the state (`baseHost`) and each host-call entry point as executable
Lean functions.  Go maps are modelled by association lists with map-style
insertion (replace the binding when the key is present, append otherwise),
so that the list length coincides with the Go `len` of the map.  `uint32`
and `uint64` arithmetic is modelled on `Nat` with explicit reductions
modulo `2 ^ 32` / `2 ^ 64`.  Operations whose Go success path can panic
(indexing `data[0]` of an empty byte slice, indexing the fixed-size log
array out of range) return `Option`, with `none` standing for the panic.
-/

namespace ProxyTest

/-- The subset of `types.Status` values produced by `base.go`. -/
inductive Status where
  | ok
  | notFound
  | empty
  | casMismatch
  | badArgument
deriving DecidableEq, Repr

/-- Opaque byte payloads (`[]byte` in Go). -/
abbrev Bytes := List Nat

/-- `2 ^ 32`, the modulus of Go `uint32` arithmetic. -/
def U32 : Nat := 4294967296

/-- `2 ^ 64`, the modulus of Go `uint64` arithmetic. -/
def U64 : Nat := 18446744073709551616

/-- Number of log levels (`types.LogLevelMax`).  Modelled from the spec:
the `types` package itself is not part of this repository snapshot; the spec
describes a fixed enumerated severity range, which in the SDK's `types`
package has six levels (`Trace`..`Critical`), so `LogLevelMax = 6`. -/
def LogLevelMax : Nat := 6

/-- Entry of the shared data store (`sharedData` in Go):
a byte payload together with its CAS counter (`uint32`). -/
structure SharedData where
  data : Bytes
  cas : Nat
deriving DecidableEq, Repr

/-- Lookup in an association list modelling a Go map (`m[k]` with `ok`). -/
def lookupA {α β : Type} [DecidableEq α] : List (α × β) → α → Option β
  | [], _ => none
  | (k, v) :: rest, a => if k = a then some v else lookupA rest a

/-- Map-style insertion into an association list (`m[k] = v` in Go):
replaces the binding if the key is present, appends otherwise. -/
def insertA {α β : Type} [DecidableEq α] : List (α × β) → α → β → List (α × β)
  | [], a, b => [(a, b)]
  | (k, v) :: rest, a, b =>
    if k = a then (a, b) :: rest else (k, v) :: insertA rest a b

/-- State of the emulated host (`baseHost` in Go).  The log array
`logs [types.LogLevelMax][]string` is modelled as a total function on level
indices; accesses outside `[0, LogLevelMax)` are handled by the operations
themselves (Go array indexing panics there). -/
structure BaseHost where
  logs : Nat → List String
  tickPeriod : Nat
  queues : List (Nat × List Bytes)
  queueNameID : List (String × Nat)
  sharedDataKVS : List (String × SharedData)
  metricIDToValue : List (Nat × Nat)
  metricIDToType : List (Nat × Nat)
  metricNameToID : List (String × Nat)

/-- `newBaseHost` in Go: every table empty, tick period zero. -/
def newBaseHost : BaseHost :=
  { logs := fun _ => []
    tickPeriod := 0
    queues := []
    queueNameID := []
    sharedDataKVS := []
    metricIDToValue := []
    metricIDToType := []
    metricNameToID := [] }

/-- `ProxyLog`: appends the message to `b.logs[logLevel]` and returns OK.
The Go code performs no level check, but `b.logs` is a fixed-size array of
length `LogLevelMax`, so indexing it with `logLevel ≥ LogLevelMax` panics;
`none` models that panic. -/
def ProxyLog (b : BaseHost) (logLevel : Nat) (message : String) :
    Option (Status × BaseHost) :=
  if logLevel < LogLevelMax then
    some (Status.ok,
      { b with logs := fun l =>
          if l = logLevel then b.logs logLevel ++ [message] else b.logs l })
  else
    none

/-- `GetLogs`: returns the bucket for `level`; `log.Fatalf` (modelled as
`none`) when `level ≥ LogLevelMax`. -/
def GetLogs (b : BaseHost) (level : Nat) : Option (List String) :=
  if level < LogLevelMax then some (b.logs level) else none

/-- `ProxySetTickPeriodMilliseconds`: unconditionally stores the period. -/
def ProxySetTickPeriodMilliseconds (b : BaseHost) (period : Nat) :
    Status × BaseHost :=
  (Status.ok, { b with tickPeriod := period })

/-- `GetTickPeriod`: returns the stored period. -/
def GetTickPeriod (b : BaseHost) : Nat :=
  b.tickPeriod

/-- `ProxyRegisterSharedQueue`: returns the existing ID for a known name;
otherwise allocates `id = uint32(len(b.queues))`, creates an empty queue
under that ID and records the name binding.  Returns `(status, returnID,
new state)`. -/
def ProxyRegisterSharedQueue (b : BaseHost) (name : String) :
    Status × Nat × BaseHost :=
  match lookupA b.queueNameID name with
  | some id => (Status.ok, id, b)
  | none =>
    let id := b.queues.length % U32
    (Status.ok, id,
      { b with
          queues := insertA b.queues id []
          queueNameID := insertA b.queueNameID name id })

/-- `ProxyDequeueSharedQueue`: NotFound for an unregistered ID, Empty for a
registered queue with no entries; otherwise removes the head and returns it.
The Go success path takes `&data[0]`, which panics when the head payload is
the empty slice; `none` models that panic.  Returns `(status, returned
payload, new state)`; the payload component is `[]` on the error paths,
where Go leaves the output parameter untouched. -/
def ProxyDequeueSharedQueue (b : BaseHost) (queueID : Nat) :
    Option (Status × Bytes × BaseHost) :=
  match lookupA b.queues queueID with
  | none => some (Status.notFound, [], b)
  | some [] => some (Status.empty, [], b)
  | some (data :: rest) =>
    if data = [] then
      none
    else
      some (Status.ok, data, { b with queues := insertA b.queues queueID rest })

/-- `ProxyEnqueueSharedQueue`: NotFound for an unregistered ID; otherwise
appends the payload at the tail. -/
def ProxyEnqueueSharedQueue (b : BaseHost) (queueID : Nat) (value : Bytes) :
    Status × BaseHost :=
  match lookupA b.queues queueID with
  | none => (Status.notFound, b)
  | some queue =>
    (Status.ok, { b with queues := insertA b.queues queueID (queue ++ [value]) })

/-- `GetQueueSize`: `len(b.queues[queueID])`; a missing map key yields the
nil slice, whose length is 0. -/
def GetQueueSize (b : BaseHost) (queueID : Nat) : Nat :=
  match lookupA b.queues queueID with
  | none => 0
  | some queue => queue.length

/-- `ProxyGetSharedData`: NotFound for an unknown key; otherwise returns the
payload and CAS counter.  The Go success path takes `&value.data[0]`, which
panics when the stored payload is empty; `none` models that panic.  Returns
`(status, payload, cas)`; payload `[]` and cas `0` on the NotFound path,
where Go leaves the output parameters untouched. -/
def ProxyGetSharedData (b : BaseHost) (key : String) :
    Option (Status × Bytes × Nat) :=
  match lookupA b.sharedDataKVS key with
  | none => some (Status.notFound, [], 0)
  | some value =>
    if value.data = [] then
      none
    else
      some (Status.ok, value.data, value.cas)

/-- `ProxySetSharedData`: creates the entry with CAS `cas + 1` (uint32) when
the key is absent, regardless of `cas`; on an existing key fails CasMismatch
when the stored CAS differs from `cas`, otherwise stores the new payload
with CAS `cas + 1` (uint32). -/
def ProxySetSharedData (b : BaseHost) (key : String) (value : Bytes)
    (cas : Nat) : Status × BaseHost :=
  match lookupA b.sharedDataKVS key with
  | none =>
    (Status.ok,
      { b with sharedDataKVS :=
          insertA b.sharedDataKVS key ⟨value, (cas + 1) % U32⟩ })
  | some prev =>
    if prev.cas ≠ cas then
      (Status.casMismatch, b)
    else
      (Status.ok,
        { b with sharedDataKVS :=
            insertA b.sharedDataKVS key ⟨value, (cas + 1) % U32⟩ })

/-- `ProxyDefineMetric`: returns the existing ID for a known name, ignoring
the supplied metric type; otherwise allocates
`id = uint32(len(b.metricNameToID))`, records the name binding, initializes
the value to 0 and stores the type.  Returns `(status, returnMetricID,
new state)`. -/
def ProxyDefineMetric (b : BaseHost) (metricType : Nat) (name : String) :
    Status × Nat × BaseHost :=
  match lookupA b.metricNameToID name with
  | some id => (Status.ok, id, b)
  | none =>
    let id := b.metricNameToID.length % U32
    (Status.ok, id,
      { b with
          metricNameToID := insertA b.metricNameToID name id
          metricIDToValue := insertA b.metricIDToValue id 0
          metricIDToType := insertA b.metricIDToType id metricType })

/-- `ProxyIncrementMetric`: BadArgument for an unknown ID; otherwise adds
`uint64(offset)` to the stored value in `uint64` arithmetic.  The Go
conversion `uint64(offset)` of the signed `int64` offset is its value modulo
`2 ^ 64`. -/
def ProxyIncrementMetric (b : BaseHost) (metricID : Nat) (offset : Int) :
    Status × BaseHost :=
  match lookupA b.metricIDToValue metricID with
  | none => (Status.badArgument, b)
  | some val =>
    let newVal := (val + (offset % (U64 : Int)).toNat) % U64
    (Status.ok,
      { b with metricIDToValue := insertA b.metricIDToValue metricID newVal })

/-- `ProxyRecordMetric`: BadArgument for an unknown ID; otherwise overwrites
the stored value unconditionally. -/
def ProxyRecordMetric (b : BaseHost) (metricID : Nat) (value : Nat) :
    Status × BaseHost :=
  match lookupA b.metricIDToValue metricID with
  | none => (Status.badArgument, b)
  | some _ =>
    (Status.ok,
      { b with metricIDToValue := insertA b.metricIDToValue metricID value })

/-- `ProxyGetMetric`: BadArgument for an unknown ID; otherwise returns the
stored value.  Returns `(status, returnMetricValue)`; the value component is
`0` on the error path, where Go leaves the output parameter untouched. -/
def ProxyGetMetric (b : BaseHost) (metricID : Nat) : Status × Nat :=
  match lookupA b.metricIDToValue metricID with
  | none => (Status.badArgument, 0)
  | some value => (Status.ok, value)

/-- Scenario harness: registers each name in turn, collecting the returned
IDs. -/
def registerAll : BaseHost → List String → List Nat
  | _, [] => []
  | b, n :: ns =>
    let r := ProxyRegisterSharedQueue b n
    r.2.1 :: registerAll r.2.2 ns

/-- Scenario harness: folds `ProxyEnqueueSharedQueue` over a list of
payloads, returning whether every call returned OK together with the final
state. -/
def enqueueAll (id : Nat) : BaseHost → List Bytes → Bool × BaseHost
  | b, [] => (true, b)
  | b, e :: es =>
    let r := ProxyEnqueueSharedQueue b id e
    let rest := enqueueAll id r.2 es
    (decide (r.1 = Status.ok) && rest.1, rest.2)

/-- Scenario harness: performs `n` `ProxyDequeueSharedQueue` calls,
collecting the payloads of the successful dequeues; stops at the first
non-OK status or panic. -/
def dequeueAll (id : Nat) : BaseHost → Nat → List Bytes × BaseHost
  | b, 0 => ([], b)
  | b, n + 1 =>
    match ProxyDequeueSharedQueue b id with
    | some (Status.ok, data, b') =>
      let rest := dequeueAll id b' n
      (data :: rest.1, rest.2)
    | _ => ([], b)

/-- Concrete test states used by witnesses. -/
def hostK : BaseHost := (ProxySetSharedData newBaseHost "k" [7] 0).2

def hostQ : BaseHost := (ProxyRegisterSharedQueue newBaseHost "q").2.2

def hostQEmptyPayload : BaseHost := (ProxyEnqueueSharedQueue hostQ 0 []).2

def hostQOnePayload : BaseHost := (ProxyEnqueueSharedQueue hostQ 0 [3]).2

def hostEmptyVal : BaseHost := (ProxySetSharedData newBaseHost "e" [] 0).2

def hostM : BaseHost := (ProxyDefineMetric newBaseHost 0 "m").2.2

theorem lookupA_insertA_self {α β : Type} [DecidableEq α] (l : List (α × β))
    (a : α) (b : β) : lookupA (insertA l a b) a = some b := by
  induction l with
  | nil => simp [insertA, lookupA]
  | cons p rest ih =>
    obtain ⟨k, v⟩ := p
    by_cases h : k = a
    · simp [insertA, lookupA, h]
    · simp [insertA, lookupA, h, ih]

theorem lookupA_insertA_ne {α β : Type} [DecidableEq α] (l : List (α × β))
    (a a' : α) (b : β) (h : a' ≠ a) :
    lookupA (insertA l a b) a' = lookupA l a' := by
  induction l with
  | nil => simp [insertA, lookupA, h, Ne.symm h]
  | cons p rest ih =>
    obtain ⟨k, v⟩ := p
    by_cases hk : k = a
    · subst hk
      simp [insertA, lookupA, Ne.symm h]
    · by_cases hk' : k = a'
      · simp [insertA, lookupA, hk, hk', h]
      · simp [insertA, lookupA, hk, hk', ih]

theorem length_insertA_of_lookupA_none {α β : Type} [DecidableEq α]
    (l : List (α × β)) (a : α) (b : β) (h : lookupA l a = none) :
    (insertA l a b).length = l.length + 1 := by
  induction l with
  | nil => rfl
  | cons p rest ih =>
    obtain ⟨k, v⟩ := p
    by_cases hk : k = a
    · simp [lookupA, hk] at h
    · simp only [lookupA, if_neg hk] at h
      simp [insertA, hk, ih h]

/-- C2: on a key that does not yet exist, `ProxySetSharedData` succeeds for
every `expectedCas`, creates the entry with the given payload and stores CAS
`expectedCas + 1` (uint32 arithmetic); no compare check occurs on creation. -/
theorem setSharedData_creates (b : BaseHost) (key : String) (value : Bytes)
    (cas : Nat) (h : lookupA b.sharedDataKVS key = none) :
    (ProxySetSharedData b key value cas).1 = Status.ok ∧
    lookupA (ProxySetSharedData b key value cas).2.sharedDataKVS key
      = some ⟨value, (cas + 1) % U32⟩ := by
  unfold ProxySetSharedData
  rw [h]
  exact ⟨rfl, lookupA_insertA_self _ _ _⟩

/-- Witness for C2: creating key `"k"` in the fresh host with
`expectedCas = 0` succeeds and stores CAS 1. -/
theorem setSharedData_creates_witness :
    lookupA newBaseHost.sharedDataKVS "k" = none ∧
    (ProxySetSharedData newBaseHost "k" [7] 0).1 = Status.ok ∧
    lookupA (ProxySetSharedData newBaseHost "k" [7] 0).2.sharedDataKVS "k"
      = some ⟨[7], (0 + 1) % U32⟩ := by
  have h : lookupA newBaseHost.sharedDataKVS "k" = none := rfl
  exact ⟨h, (setSharedData_creates newBaseHost "k" [7] 0 h).1,
    (setSharedData_creates newBaseHost "k" [7] 0 h).2⟩

/-- C3: on an existing key, `ProxySetSharedData` with a stale `expectedCas`
fails CasMismatch leaving the whole state (in particular the stored payload
and CAS) unchanged; with `expectedCas` equal to the stored CAS it succeeds
and stores the new payload with CAS `expectedCas + 1` (uint32 arithmetic). -/
theorem setSharedData_existing (b : BaseHost) (key : String) (value : Bytes)
    (e : Nat) (d : SharedData) (h : lookupA b.sharedDataKVS key = some d) :
    (d.cas ≠ e → ProxySetSharedData b key value e = (Status.casMismatch, b)) ∧
    (d.cas = e →
      (ProxySetSharedData b key value e).1 = Status.ok ∧
      lookupA (ProxySetSharedData b key value e).2.sharedDataKVS key
        = some ⟨value, (e + 1) % U32⟩) := by
  constructor
  · intro hne
    simp [ProxySetSharedData, h, hne]
  · intro heq
    subst heq
    refine ⟨by simp [ProxySetSharedData, h], ?_⟩
    simp [ProxySetSharedData, h, lookupA_insertA_self]

/-- Witness for C3: in a host where `"k"` holds `([7], cas 1)`, a write with
stale CAS 5 fails CasMismatch and changes nothing, while a write with CAS 1
succeeds and stores `([8], cas 2)`. -/
theorem setSharedData_existing_witness :
    lookupA hostK.sharedDataKVS "k" = some ⟨[7], 1⟩ ∧
    ProxySetSharedData hostK "k" [8] 5 = (Status.casMismatch, hostK) ∧
    (ProxySetSharedData hostK "k" [8] 1).1 = Status.ok ∧
    lookupA (ProxySetSharedData hostK "k" [8] 1).2.sharedDataKVS "k"
      = some ⟨[8], (1 + 1) % U32⟩ := by
  have h : lookupA hostK.sharedDataKVS "k" = some ⟨[7], 1⟩ := rfl
  exact ⟨h, (setSharedData_existing hostK "k" [8] 5 ⟨[7], 1⟩ h).1 (by decide),
    ((setSharedData_existing hostK "k" [8] 1 ⟨[7], 1⟩ h).2 rfl).1,
    ((setSharedData_existing hostK "k" [8] 1 ⟨[7], 1⟩ h).2 rfl).2⟩

/-- C1 counterexample: the very first successful write to key `"k"` may
supply `expectedCas = 5`; it is accepted and stores CAS 6, so the sequence
of CAS values observed across successful writes does not start at 1. -/
theorem sharedData_cas_first_write_not_one :
    (ProxySetSharedData newBaseHost "k" [7] 5).1 = Status.ok ∧
    lookupA (ProxySetSharedData newBaseHost "k" [7] 5).2.sharedDataKVS "k"
      = some ⟨[7], 6⟩ ∧ (6 : Nat) ≠ 1 :=
  ⟨rfl, rfl, by decide⟩

/-- C1 (amended): every accepted write stores CAS `expectedCas + 1` modulo
`2 ^ 32`.  On an existing key an accepted write requires `expectedCas` to
equal the stored CAS, so each accepted write advances the stored CAS by
exactly 1 (strictly increasing) as long as no uint32 wraparound occurs;
the sequence starts at 1 after the first write exactly when that first
write supplies `expectedCas = 0` (which the code does not require). -/
theorem sharedData_cas_advance (b : BaseHost) (key : String) (value : Bytes)
    (e : Nat) :
    (lookupA b.sharedDataKVS key = none →
      (ProxySetSharedData b key value e).1 = Status.ok ∧
      lookupA (ProxySetSharedData b key value e).2.sharedDataKVS key
        = some ⟨value, (e + 1) % U32⟩ ∧
      (e = 0 → lookupA (ProxySetSharedData b key value e).2.sharedDataKVS key
        = some ⟨value, 1⟩)) ∧
    (∀ d, lookupA b.sharedDataKVS key = some d →
      (ProxySetSharedData b key value e).1 = Status.ok →
      e = d.cas ∧
      lookupA (ProxySetSharedData b key value e).2.sharedDataKVS key
        = some ⟨value, (d.cas + 1) % U32⟩ ∧
      (d.cas + 1 < U32 →
        lookupA (ProxySetSharedData b key value e).2.sharedDataKVS key
          = some ⟨value, d.cas + 1⟩ ∧ d.cas < d.cas + 1)) := by
  constructor
  · intro h
    refine ⟨(setSharedData_creates b key value e h).1,
      (setSharedData_creates b key value e h).2, ?_⟩
    intro he
    subst he
    have h1 : (0 + 1) % U32 = 1 := by norm_num [U32]
    rw [(setSharedData_creates b key value 0 h).2, h1]
  · intro d h hok
    by_cases hne : d.cas = e
    · subst hne
      have h2 := (setSharedData_existing b key value d.cas d h).2 rfl
      refine ⟨rfl, h2.2, ?_⟩
      intro hlt
      have h3 : (d.cas + 1) % U32 = d.cas + 1 := Nat.mod_eq_of_lt hlt
      rw [h2.2, h3]
      exact ⟨rfl, Nat.lt_succ_self _⟩
    · exfalso
      have hmm := (setSharedData_existing b key value e d h).1 hne
      rw [hmm] at hok
      simp at hok

/-- Witness for C1 (amended): creation of `"k"` with `expectedCas = 0`
stores CAS 1; in the host where `"k"` holds CAS 1, the accepted write with
`expectedCas = 1` stores CAS 2 = 1 + 1. -/
theorem sharedData_cas_advance_witness :
    lookupA newBaseHost.sharedDataKVS "k" = none ∧
    lookupA (ProxySetSharedData newBaseHost "k" [7] 0).2.sharedDataKVS "k"
      = some ⟨[7], 1⟩ ∧
    lookupA hostK.sharedDataKVS "k" = some ⟨[7], 1⟩ ∧
    (ProxySetSharedData hostK "k" [9] 1).1 = Status.ok ∧
    lookupA (ProxySetSharedData hostK "k" [9] 1).2.sharedDataKVS "k"
      = some ⟨[9], 2⟩ ∧ (1 : Nat) < 2 := by
  have h0 : lookupA newBaseHost.sharedDataKVS "k" = none := rfl
  have h1 : lookupA hostK.sharedDataKVS "k" = some ⟨[7], 1⟩ := rfl
  have hc := ((sharedData_cas_advance newBaseHost "k" [7] 0).1 h0).2.2 rfl
  have he := ((sharedData_cas_advance hostK "k" [9] 1).2 ⟨[7], 1⟩ h1 rfl).2.2
    (by norm_num [U32])
  exact ⟨h0, hc, h1, rfl, he.1, he.2⟩

theorem enqueueAll_ok (id : Nat) (es : List Bytes) :
    ∀ b q, lookupA b.queues id = some q →
      (enqueueAll id b es).1 = true ∧
      lookupA (enqueueAll id b es).2.queues id = some (q ++ es) := by
  induction es with
  | nil =>
    intro b q h
    simpa [enqueueAll] using h
  | cons e es ih =>
    intro b q h
    have hstep : ProxyEnqueueSharedQueue b id e
        = (Status.ok, { b with queues := insertA b.queues id (q ++ [e]) }) := by
      simp [ProxyEnqueueSharedQueue, h]
    have h1 : lookupA
        ({ b with queues := insertA b.queues id (q ++ [e]) } : BaseHost).queues
        id = some (q ++ [e]) := lookupA_insertA_self _ _ _
    have h2 := ih _ _ h1
    simp only [enqueueAll, hstep]
    simpa using h2

theorem dequeueAll_drains (id : Nat) (es : List Bytes) :
    ∀ b, lookupA b.queues id = some es → (∀ e ∈ es, e ≠ []) →
      (dequeueAll id b es.length).1 = es ∧
      lookupA (dequeueAll id b es.length).2.queues id = some [] := by
  induction es with
  | nil =>
    intro b h _
    exact ⟨rfl, h⟩
  | cons x rest ih =>
    intro b h hne
    have hx : x ≠ [] := hne x (by simp)
    have hstep : ProxyDequeueSharedQueue b id
        = some (Status.ok, x, { b with queues := insertA b.queues id rest }) := by
      simp [ProxyDequeueSharedQueue, h, hx]
    have h1 : lookupA
        ({ b with queues := insertA b.queues id rest } : BaseHost).queues id
        = some rest := lookupA_insertA_self _ _ _
    have h2 := ih _ h1 (fun e he => hne e (by simp [he]))
    simp only [List.length_cons, dequeueAll, hstep]
    simpa using h2

/-- C4 counterexample: registering a queue and enqueuing the single payload
sequence `e1 = []` (the empty byte string) succeeds, but the following
dequeue panics (Go indexes `data[0]` of an empty slice; modelled by `none`)
instead of yielding `e1`. -/
theorem queue_fifo_empty_payload :
    (ProxyEnqueueSharedQueue hostQ 0 []).1 = Status.ok ∧
    ProxyDequeueSharedQueue (ProxyEnqueueSharedQueue hostQ 0 []).2 0 = none :=
  ⟨rfl, rfl⟩

/-- C4 (amended): for a registered, initially empty queue and any sequence
of non-empty payloads `e1..en`, all enqueues return OK and the following
dequeues yield `e1..en` in that exact order, after which a further dequeue
on the (registered, now empty) queue fails Empty; dequeuing an unregistered
queue ID fails NotFound, and enqueuing to an unregistered queue ID fails
NotFound.  (The non-emptiness restriction is forced by the dequeue panic on
empty payloads, see the counterexample.) -/
theorem queue_fifo (b : BaseHost) (id : Nat) (es : List Bytes)
    (hreg : lookupA b.queues id = some [])
    (hne : ∀ e ∈ es, e ≠ []) :
    (enqueueAll id b es).1 = true ∧
    (dequeueAll id (enqueueAll id b es).2 es.length).1 = es ∧
    ProxyDequeueSharedQueue (dequeueAll id (enqueueAll id b es).2 es.length).2 id
      = some (Status.empty, [],
          (dequeueAll id (enqueueAll id b es).2 es.length).2) ∧
    (∀ b' : BaseHost, ∀ i, lookupA b'.queues i = none →
      ProxyDequeueSharedQueue b' i = some (Status.notFound, [], b') ∧
      ∀ v, ProxyEnqueueSharedQueue b' i v = (Status.notFound, b')) := by
  have h1 := enqueueAll_ok id es b [] hreg
  have h2 := dequeueAll_drains id es (enqueueAll id b es).2 (by simpa using h1.2) hne
  refine ⟨h1.1, h2.1, ?_, ?_⟩
  · simp [ProxyDequeueSharedQueue, h2.2]
  · intro b' i hnone
    exact ⟨by simp [ProxyDequeueSharedQueue, hnone],
      fun v => by simp [ProxyEnqueueSharedQueue, hnone]⟩

/-- Witness for C4 (amended): on the registered empty queue 0, enqueuing
`[1]` then `[2]` and dequeuing twice yields `[1], [2]` in order, then Empty;
queue ID 5 is unregistered and both dequeue and enqueue fail NotFound. -/
theorem queue_fifo_witness :
    lookupA hostQ.queues 0 = some [] ∧
    (enqueueAll 0 hostQ [[1], [2]]).1 = true ∧
    (dequeueAll 0 (enqueueAll 0 hostQ [[1], [2]]).2 2).1 = [[1], [2]] ∧
    ProxyDequeueSharedQueue (dequeueAll 0 (enqueueAll 0 hostQ [[1], [2]]).2 2).2 0
      = some (Status.empty, [],
          (dequeueAll 0 (enqueueAll 0 hostQ [[1], [2]]).2 2).2) ∧
    ProxyDequeueSharedQueue newBaseHost 5
      = some (Status.notFound, [], newBaseHost) ∧
    ProxyEnqueueSharedQueue newBaseHost 5 [9] = (Status.notFound, newBaseHost) := by
  have hreg : lookupA hostQ.queues 0 = some [] := rfl
  have h := queue_fifo hostQ 0 [[1], [2]] hreg (by decide)
  exact ⟨hreg, h.1, h.2.1, h.2.2.1, (h.2.2.2 newBaseHost 5 rfl).1,
    (h.2.2.2 newBaseHost 5 rfl).2 [9]⟩

theorem registerAll_range_aux (names : List String) :
    ∀ b k, (∀ n ∈ names, lookupA b.queueNameID n = none) →
      names.Nodup →
      b.queues.length = k →
      (∀ j, k ≤ j → lookupA b.queues j = none) →
      k + names.length ≤ U32 →
      registerAll b names = List.range' k names.length := by
  induction names with
  | nil =>
    intro b k _ _ _ _ _
    rfl
  | cons n ns ih =>
    intro b k hfresh hnd hlen hqnone hle
    have hn : lookupA b.queueNameID n = none := hfresh n (by simp)
    have hklt : k < U32 := by
      simp only [List.length_cons] at hle
      omega
    have hid : b.queues.length % U32 = k := by
      rw [hlen]
      exact Nat.mod_eq_of_lt hklt
    have hstep : ProxyRegisterSharedQueue b n
        = (Status.ok, k,
            { b with
                queues := insertA b.queues k []
                queueNameID := insertA b.queueNameID n k }) := by
      simp [ProxyRegisterSharedQueue, hn, hid]
    have hkfresh : lookupA b.queues k = none := hqnone k (Nat.le_refl k)
    have hfresh1 : ∀ m ∈ ns,
        lookupA (insertA b.queueNameID n k) m = none := by
      intro m hm
      have hmn : m ≠ n := by
        intro hmn
        subst hmn
        exact (List.nodup_cons.mp hnd).1 hm
      rw [lookupA_insertA_ne _ _ _ _ hmn]
      exact hfresh m (by simp [hm])
    have hlen1 : (insertA b.queues k ([] : List Bytes)).length = k + 1 := by
      rw [length_insertA_of_lookupA_none _ _ _ hkfresh, hlen]
    have hqnone1 : ∀ j, k + 1 ≤ j →
        lookupA (insertA b.queues k ([] : List Bytes)) j = none := by
      intro j hj
      rw [lookupA_insertA_ne _ _ _ _ (by omega)]
      exact hqnone j (by omega)
    have h2 := ih
      ({ b with
          queues := insertA b.queues k []
          queueNameID := insertA b.queueNameID n k }) (k + 1)
      hfresh1 (List.nodup_cons.mp hnd).2 hlen1 hqnone1
      (by simp only [List.length_cons] at hle; omega)
    simp only [registerAll, hstep, h2, List.length_cons]
    rfl

/-- C5: `ProxyRegisterSharedQueue` is idempotent — a second call with the
same name returns the same ID and the unchanged state (so no second queue
is created); a call with an unregistered name returns
`uint32(len(queues))`, i.e. the number of queues already registered (below
the uint32 bound); and registering `N` distinct names starting from the
fresh host returns the IDs `0..N-1` in call order. -/
theorem register_idempotent_sequential (b : BaseHost) (name : String)
    (names : List String) :
    ProxyRegisterSharedQueue (ProxyRegisterSharedQueue b name).2.2 name
      = (Status.ok, (ProxyRegisterSharedQueue b name).2.1,
          (ProxyRegisterSharedQueue b name).2.2) ∧
    (lookupA b.queueNameID name = none →
      (ProxyRegisterSharedQueue b name).2.1 = b.queues.length % U32 ∧
      (b.queues.length < U32 →
        (ProxyRegisterSharedQueue b name).2.1 = b.queues.length)) ∧
    (names.Nodup → names.length ≤ U32 →
      registerAll newBaseHost names = List.range names.length) := by
  refine ⟨?_, ?_, ?_⟩
  · match hl : lookupA b.queueNameID name with
    | some id =>
      simp [ProxyRegisterSharedQueue, hl]
    | none =>
      have hself : lookupA (insertA b.queueNameID name (b.queues.length % U32))
          name = some (b.queues.length % U32) := lookupA_insertA_self _ _ _
      simp [ProxyRegisterSharedQueue, hl, hself]
  · intro hl
    refine ⟨by simp [ProxyRegisterSharedQueue, hl], ?_⟩
    intro hlt
    simp [ProxyRegisterSharedQueue, hl, Nat.mod_eq_of_lt hlt]
  · intro hnd hle
    rw [List.range_eq_range']
    exact registerAll_range_aux names newBaseHost 0 (fun n _ => rfl) hnd rfl
      (fun j _ => rfl) (by simpa using hle)

/-- Witness for C5: registering `"a"` twice on the fresh host returns ID 0
both times without changing the state after the first call; the first call
returned `len(queues) = 0`; registering the three distinct names
`"a", "b", "c"` from the fresh host returns IDs `[0, 1, 2]`. -/
theorem register_idempotent_sequential_witness :
    lookupA newBaseHost.queueNameID "a" = none ∧
    ProxyRegisterSharedQueue (ProxyRegisterSharedQueue newBaseHost "a").2.2 "a"
      = (Status.ok, (ProxyRegisterSharedQueue newBaseHost "a").2.1,
          (ProxyRegisterSharedQueue newBaseHost "a").2.2) ∧
    (ProxyRegisterSharedQueue newBaseHost "a").2.1 = newBaseHost.queues.length ∧
    registerAll newBaseHost ["a", "b", "c"] = List.range 3 := by
  have hl : lookupA newBaseHost.queueNameID "a" = none := rfl
  have h := register_idempotent_sequential newBaseHost "a" ["a", "b", "c"]
  exact ⟨hl, h.1, (h.2.1 hl).2 (by decide),
    h.2.2 (by decide) (by decide)⟩

/-- C6: `GetQueueSize` returns 0 (not an error status) for an unregistered
queue ID, while enqueue and dequeue on the same unregistered ID fail
NotFound; for a registered queue it returns the number of pending entries. -/
theorem queueSize_asymmetry (b : BaseHost) (id : Nat) :
    (lookupA b.queues id = none →
      GetQueueSize b id = 0 ∧
      (∀ v, ProxyEnqueueSharedQueue b id v = (Status.notFound, b)) ∧
      ProxyDequeueSharedQueue b id = some (Status.notFound, [], b)) ∧
    (∀ q, lookupA b.queues id = some q → GetQueueSize b id = q.length) := by
  constructor
  · intro h
    exact ⟨by simp [GetQueueSize, h],
      fun v => by simp [ProxyEnqueueSharedQueue, h],
      by simp [ProxyDequeueSharedQueue, h]⟩
  · intro q h
    simp [GetQueueSize, h]

/-- Witness for C6: queue ID 7 is unregistered in the fresh host — size 0,
enqueue NotFound, dequeue NotFound; queue 0 of `hostQOnePayload` holds one
entry and its size is 1. -/
theorem queueSize_asymmetry_witness :
    lookupA newBaseHost.queues 7 = none ∧
    GetQueueSize newBaseHost 7 = 0 ∧
    ProxyEnqueueSharedQueue newBaseHost 7 [1] = (Status.notFound, newBaseHost) ∧
    ProxyDequeueSharedQueue newBaseHost 7
      = some (Status.notFound, [], newBaseHost) ∧
    lookupA hostQOnePayload.queues 0 = some [[3]] ∧
    GetQueueSize hostQOnePayload 0 = [[3]].length := by
  have h7 : lookupA newBaseHost.queues 7 = none := rfl
  have h0 : lookupA hostQOnePayload.queues 0 = some [[3]] := rfl
  have h := queueSize_asymmetry newBaseHost 7
  exact ⟨h7, (h.1 h7).1, (h.1 h7).2.1 [1], (h.1 h7).2.2, h0,
    (queueSize_asymmetry hostQOnePayload 0).2 [[3]] h0⟩

/-- The Go update `val + uint64(offset)` (uint64 wraparound, with the
signed `int64` offset reinterpreted modulo `2 ^ 64`) equals the integer sum
`val + offset` reduced modulo `2 ^ 64`. -/
theorem uint64_add_signed (val : Nat) (offset : Int) :
    (val + (offset % (U64 : Int)).toNat) % U64
      = (((val : Int) + offset) % (U64 : Int)).toNat := by
  simp only [U64]
  omega

/-- C7: for a defined metric ID, `ProxyIncrementMetric` adds the signed
delta with wraparound modulo `2 ^ 64` and never errors, so an increment
followed by `ProxyGetMetric` reflects the exact sum modulo `2 ^ 64`;
`ProxyRecordMetric` overwrites the stored value unconditionally; both fail
BadArgument on an unknown ID leaving the whole state (in particular every
metric value) unchanged. -/
theorem metric_increment_record (b : BaseHost) (id : Nat) :
    (∀ val, lookupA b.metricIDToValue id = some val →
      (∀ offset : Int,
        (ProxyIncrementMetric b id offset).1 = Status.ok ∧
        ProxyGetMetric (ProxyIncrementMetric b id offset).2 id
          = (Status.ok, (((val : Int) + offset) % (U64 : Int)).toNat)) ∧
      (∀ v, (ProxyRecordMetric b id v).1 = Status.ok ∧
        ProxyGetMetric (ProxyRecordMetric b id v).2 id = (Status.ok, v))) ∧
    (lookupA b.metricIDToValue id = none →
      (∀ offset, ProxyIncrementMetric b id offset = (Status.badArgument, b)) ∧
      (∀ v, ProxyRecordMetric b id v = (Status.badArgument, b))) := by
  constructor
  · intro val hv
    constructor
    · intro offset
      refine ⟨by simp [ProxyIncrementMetric, hv], ?_⟩
      have hself := lookupA_insertA_self b.metricIDToValue id
        ((((val : Int) + offset) % (U64 : Int)).toNat)
      simp [ProxyIncrementMetric, ProxyGetMetric, hv, uint64_add_signed, hself]
    · intro v
      refine ⟨by simp [ProxyRecordMetric, hv], ?_⟩
      have hself := lookupA_insertA_self b.metricIDToValue id v
      simp [ProxyRecordMetric, ProxyGetMetric, hv, hself]
  · intro h
    exact ⟨fun offset => by simp [ProxyIncrementMetric, h],
      fun v => by simp [ProxyRecordMetric, h]⟩

/-- Witness for C7: in the host with metric `"m"` defined (ID 0, value 0),
incrementing by `-3` underflows and wraps to `2 ^ 64 - 3`; recording 7
overwrites; ID 5 is unknown and both calls fail BadArgument unchanged. -/
theorem metric_increment_record_witness :
    lookupA hostM.metricIDToValue 0 = some 0 ∧
    (ProxyIncrementMetric hostM 0 (-3)).1 = Status.ok ∧
    ProxyGetMetric (ProxyIncrementMetric hostM 0 (-3)).2 0
      = (Status.ok, (((0 : Nat) + (-3 : Int)) % (U64 : Int)).toNat) ∧
    (((0 : Nat) + (-3 : Int)) % (U64 : Int)).toNat = 18446744073709551613 ∧
    (ProxyRecordMetric hostM 0 7).1 = Status.ok ∧
    ProxyGetMetric (ProxyRecordMetric hostM 0 7).2 0 = (Status.ok, 7) ∧
    lookupA hostM.metricIDToValue 5 = none ∧
    ProxyIncrementMetric hostM 5 1 = (Status.badArgument, hostM) ∧
    ProxyRecordMetric hostM 5 1 = (Status.badArgument, hostM) := by
  have h0 : lookupA hostM.metricIDToValue 0 = some 0 := rfl
  have h5 : lookupA hostM.metricIDToValue 5 = none := rfl
  have h := metric_increment_record hostM 0
  have h' := metric_increment_record hostM 5
  exact ⟨h0, ((h.1 0 h0).1 (-3)).1, ((h.1 0 h0).1 (-3)).2,
    by simp only [U64]; rfl,
    ((h.1 0 h0).2 7).1, ((h.1 0 h0).2 7).2, h5,
    (h'.2 h5).1 1, (h'.2 h5).2 1⟩

/-- C8: `ProxyDefineMetric` on an already-defined name returns the existing
ID and the unchanged state — the supplied kind is ignored (not validated),
the accumulated value and stored kind stay untouched and no new ID is
allocated; on a new name it assigns `uint32(count of names already
defined)` as the ID and initializes the value to 0. -/
theorem defineMetric_idempotent_sequential (b : BaseHost) (kind : Nat)
    (name : String) :
    (∀ id, lookupA b.metricNameToID name = some id →
      ProxyDefineMetric b kind name = (Status.ok, id, b)) ∧
    (lookupA b.metricNameToID name = none →
      (ProxyDefineMetric b kind name).2.1 = b.metricNameToID.length % U32 ∧
      (b.metricNameToID.length < U32 →
        (ProxyDefineMetric b kind name).2.1 = b.metricNameToID.length) ∧
      lookupA (ProxyDefineMetric b kind name).2.2.metricNameToID name
        = some (b.metricNameToID.length % U32) ∧
      lookupA (ProxyDefineMetric b kind name).2.2.metricIDToValue
        (b.metricNameToID.length % U32) = some 0) := by
  constructor
  · intro id h
    simp [ProxyDefineMetric, h]
  · intro h
    refine ⟨by simp [ProxyDefineMetric, h], ?_, ?_, ?_⟩
    · intro hlt
      simp [ProxyDefineMetric, h, Nat.mod_eq_of_lt hlt]
    · simp [ProxyDefineMetric, h, lookupA_insertA_self]
    · simp [ProxyDefineMetric, h, lookupA_insertA_self]

/-- Witness for C8: redefining `"m"` in `hostM` with a different kind (9)
returns the existing ID 0 and the unchanged state (value and kind intact);
defining the fresh name `"m"` in the fresh host assigns ID = 0 = count of
names already defined, with value initialized to 0. -/
theorem defineMetric_idempotent_sequential_witness :
    lookupA hostM.metricNameToID "m" = some 0 ∧
    ProxyDefineMetric hostM 9 "m" = (Status.ok, 0, hostM) ∧
    lookupA newBaseHost.metricNameToID "m" = none ∧
    (ProxyDefineMetric newBaseHost 0 "m").2.1 = newBaseHost.metricNameToID.length ∧
    lookupA (ProxyDefineMetric newBaseHost 0 "m").2.2.metricIDToValue
      (newBaseHost.metricNameToID.length % U32) = some 0 := by
  have hm : lookupA hostM.metricNameToID "m" = some 0 := rfl
  have hn : lookupA newBaseHost.metricNameToID "m" = none := rfl
  have h := defineMetric_idempotent_sequential newBaseHost 0 "m"
  exact ⟨hm, (defineMetric_idempotent_sequential hostM 9 "m").1 0 hm, hn,
    (h.2 hn).2.1 (by decide), (h.2 hn).2.2.2⟩

/-- C9 counterexample: `ProxyLog` with level `LogLevelMax` (= 6, the first
out-of-range level) does not return OK: the Go code indexes the fixed-size
array `b.logs[logLevel]` without validating the level, which panics
(modelled by `none`). -/
theorem proxyLog_out_of_range :
    ProxyLog newBaseHost LogLevelMax "m" = none := rfl

/-- C9 (amended): for every level inside the array range
(`level < LogLevelMax`) `ProxyLog` succeeds with OK, appending the message
at the end of that level's bucket while every other bucket is untouched, so
messages are retrievable in insertion order and never removed; for an
out-of-range level the unchecked array indexing panics instead of
returning a status (see the counterexample). -/
theorem proxyLog_appends (b : BaseHost) (level : Nat) (msg : String)
    (h : level < LogLevelMax) :
    ∃ b', ProxyLog b level msg = some (Status.ok, b') ∧
      GetLogs b' level = some (b.logs level ++ [msg]) ∧
      ∀ l, l ≠ level → b'.logs l = b.logs l := by
  refine ⟨{ b with logs := fun l =>
      if l = level then b.logs level ++ [msg] else b.logs l }, ?_, ?_, ?_⟩
  · simp [ProxyLog, h]
  · simp [GetLogs, h]
  · intro l hl
    simp [hl]

/-- Witness for C9 (amended): logging `"m"` at level 0 on the fresh host
succeeds and the bucket for level 0 then reads `[] ++ ["m"]`. -/
theorem proxyLog_appends_witness :
    (0 : Nat) < LogLevelMax ∧
    ∃ b', ProxyLog newBaseHost 0 "m" = some (Status.ok, b') ∧
      GetLogs b' 0 = some (newBaseHost.logs 0 ++ ["m"]) ∧
      ∀ l, l ≠ 0 → b'.logs l = newBaseHost.logs l :=
  ⟨by decide, proxyLog_appends newBaseHost 0 "m" (by decide)⟩

/-- C10: when the payload stored for a key is empty, `ProxyGetSharedData`
takes the address of the first element of an empty slice and panics
(modelled by `none`); likewise `ProxyDequeueSharedQueue` when the payload
at the head of the queue is empty; the documented success behavior of both
calls is reached exactly when the relevant payload is non-empty. -/
theorem empty_payload_panics (b : BaseHost) (key : String) (id : Nat) :
    (∀ c, lookupA b.sharedDataKVS key = some ⟨[], c⟩ →
      ProxyGetSharedData b key = none) ∧
    (∀ d c, lookupA b.sharedDataKVS key = some ⟨d, c⟩ → d ≠ [] →
      ProxyGetSharedData b key = some (Status.ok, d, c)) ∧
    (∀ rest, lookupA b.queues id = some ([] :: rest) →
      ProxyDequeueSharedQueue b id = none) ∧
    (∀ x rest, lookupA b.queues id = some (x :: rest) → x ≠ [] →
      ProxyDequeueSharedQueue b id
        = some (Status.ok, x,
            { b with queues := insertA b.queues id rest })) := by
  refine ⟨?_, ?_, ?_, ?_⟩
  · intro c h
    simp [ProxyGetSharedData, h]
  · intro d c h hd
    simp [ProxyGetSharedData, h, hd]
  · intro rest h
    simp [ProxyDequeueSharedQueue, h]
  · intro x rest h hx
    simp [ProxyDequeueSharedQueue, h, hx]

/-- Witness for C10: key `"e"` of `hostEmptyVal` holds the empty payload
and `ProxyGetSharedData` panics; key `"k"` of `hostK` holds `[7]` and get
succeeds; queue 0 of `hostQEmptyPayload` has the empty payload at its head
and dequeue panics; queue 0 of `hostQOnePayload` has head `[3]` and dequeue
succeeds. -/
theorem empty_payload_panics_witness :
    lookupA hostEmptyVal.sharedDataKVS "e" = some ⟨[], 1⟩ ∧
    ProxyGetSharedData hostEmptyVal "e" = none ∧
    lookupA hostK.sharedDataKVS "k" = some ⟨[7], 1⟩ ∧
    ProxyGetSharedData hostK "k" = some (Status.ok, [7], 1) ∧
    lookupA hostQEmptyPayload.queues 0 = some [[]] ∧
    ProxyDequeueSharedQueue hostQEmptyPayload 0 = none ∧
    lookupA hostQOnePayload.queues 0 = some [[3]] ∧
    ProxyDequeueSharedQueue hostQOnePayload 0
      = some (Status.ok, [3],
          { hostQOnePayload with
              queues := insertA hostQOnePayload.queues 0 [] }) := by
  have he : lookupA hostEmptyVal.sharedDataKVS "e" = some ⟨[], 1⟩ := rfl
  have hk : lookupA hostK.sharedDataKVS "k" = some ⟨[7], 1⟩ := rfl
  have hqe : lookupA hostQEmptyPayload.queues 0 = some [[]] := rfl
  have hq1 : lookupA hostQOnePayload.queues 0 = some [[3]] := rfl
  exact ⟨he, (empty_payload_panics hostEmptyVal "e" 0).1 1 he,
    hk, (empty_payload_panics hostK "k" 0).2.1 [7] 1 hk (by decide),
    hqe, (empty_payload_panics hostQEmptyPayload "x" 0).2.2.1 [] hqe,
    hq1, (empty_payload_panics hostQOnePayload "x" 0).2.2.2 [3] [] hq1
      (by decide)⟩

end ProxyTest
